import Mathlib

/-!
Shallow embedding of the storyteller repository's core logic
(scripts/layout_selector.py, scripts/prompt_parser.py,
scripts/narration_extractor.py) and proofs about it.

Strings are modelled as `List Char`.  Python regular-expression searches
are hand-translated, for each concrete pattern appearing in the source,
into deterministic scanning functions whose behaviour coincides with
`re.search` / `re.finditer` / `re.findall` on that pattern (leftmost
match; greedy/lazy quantifier resolution worked out per pattern and
recorded in comments).  Python's `random.random() < 0.8` coin flips and
`random.sample` draws are modelled as explicit oracle parameters; the
predicate `SampleOK` states exactly the contract of
`random.sample(pool, k)` for `k ≤ len(pool)`: the result is a
permutation of a sublist (distinct positions, order-preserving choice)
of the pool, of length `k`.
-/

abbrev Str := List Char

/-- ASCII whitespace as recognized by Python `str.strip` / regex `\s`
(the documents this tool processes use only ASCII whitespace). -/
def pyIsSpace (c : Char) : Bool :=
  c = ' ' || c = '\t' || c = '\n' || c = '\r' || c = '\x0b' || c = '\x0c'

/-- Python `str.strip()`. -/
def pyStrip (s : Str) : Str :=
  ((s.dropWhile pyIsSpace).reverse.dropWhile pyIsSpace).reverse

/-- Convenience: a Lean string literal as a `List Char`. -/
def strLit (s : String) : Str := s.data

/-- `re.search` driver: try a match-at-position function at every start
position, left to right (including the empty suffix), returning the
position and payload of the leftmost success. -/
def scanFirst (f : Str → Option α) : Str → Option (Nat × α)
  | [] =>
    match f [] with
    | some a => some (0, a)
    | none => none
  | c :: t =>
    match f (c :: t) with
    | some a => some (0, a)
    | none =>
      match scanFirst f t with
      | some (i, a) => some (i + 1, a)
      | none => none

/-- Match a literal at the current position, then continue. -/
def litThen (lit : String) (k : Str → Option α) (t : Str) : Option α :=
  if lit.data.isPrefixOf t then k (t.drop lit.data.length) else none

/-- Position of the first occurrence of a literal substring. -/
def findSub (pat : String) (s : Str) : Option Nat :=
  (scanFirst (fun t => if pat.data.isPrefixOf t then some () else none) s).map (·.1)

/-! ## layout_selector.py -/

namespace LayoutSelector

/-- `list(LAYOUT_PATTERNS.keys())`: the catalog ids 1..100 in insertion
order (the dict maps each id to a display name; the names play no role
in any claim and are omitted). -/
def LAYOUT_PATTERN_IDS : List Int := (List.range' 1 100).map (fun (n : Nat) => (n : Int))

/-- An integer range `list(range(a, a+len))` as `List Int`. -/
def rangeI (a len : Nat) : List Int := (List.range' a len).map (fun (n : Nat) => (n : Int))

/-- `CATEGORIES`, in dict insertion order. -/
def CATEGORIES : List (String × List Int) :=
  [("asymmetric", rangeI 1 15),
   ("split", rangeI 16 15),
   ("diagonal", rangeI 31 15),
   ("circular", rangeI 46 15),
   ("grid", rangeI 61 15),
   ("comparison", rangeI 76 10),
   ("specialty", rangeI 86 15)]

/-- `SCENE_TYPE_RECOMMENDATIONS`, in dict insertion order. -/
def SCENE_TYPE_RECOMMENDATIONS : List (String × List Int) :=
  [("opening", [46, 50, 51, 60, 89, 95]),
   ("closing", [46, 50, 51, 60, 89, 95, 100]),
   ("problem", [1, 2, 46, 76, 77, 83]),
   ("discovery", [31, 33, 50, 56, 92, 96]),
   ("solution", [17, 61, 70, 89, 90, 93]),
   ("impact", [42, 50, 86, 87, 91, 100]),
   ("comparison", [76, 77, 78, 79, 80, 81, 82, 83, 84, 85]),
   ("timeline", [86, 87, 88]),
   ("network", [89, 90, 91, 95])]

/-- `VISUAL_WEIGHT`, in dict insertion order. -/
def VISUAL_WEIGHT : List (String × List Int) :=
  [("light", [2, 7, 14, 19, 24, 56, 73, 83, 96, 100]),
   ("medium", [16, 21, 25, 51, 61, 65, 76, 86, 89, 95]),
   ("heavy", [1, 9, 48, 49, 62, 66, 74, 90, 97, 99])]

/-- `get_category`: first category whose id list contains the id,
else the sentinel "unknown". -/
def get_category (pattern_id : Int) : String :=
  match CATEGORIES.find? (fun ci => ci.2.contains pattern_id) with
  | some ci => ci.1
  | none => "unknown"

/-- The weight lookup inside `suggest_patterns`: default "medium",
overridden by the first `VISUAL_WEIGHT` class listing the id. -/
def weightOf (pattern_id : Int) : String :=
  match VISUAL_WEIGHT.find? (fun wi => wi.2.contains pattern_id) with
  | some wi => wi.1
  | none => "medium"

/-- One returned suggestion.  The Python dict also carries `name` (a
catalog lookup) and a derived `reason` string; no claim mentions them
and they are omitted from the record. -/
structure Suggestion where
  pattern_id : Int
  category : String
  weight : String
deriving DecidableEq, Repr

/-- The starting candidate list of `suggest_patterns`: the curated
recommendation list when `scene_type` is truthy and a known key
(`if scene_type and scene_type in SCENE_TYPE_RECOMMENDATIONS`; the empty
string is falsy but is no key either, so a plain lookup is equivalent),
else all catalog ids. -/
def poolBase (scene_type : Option String) : List Int :=
  match scene_type.bind (fun st => SCENE_TYPE_RECOMMENDATIONS.find? (fun r => r.1 == st)) with
  | some r => r.2
  | none => LAYOUT_PATTERN_IDS

/-- The candidate list after the used-pattern hard exclusion
(`candidates = [p for p in candidates if p not in used_patterns]`). -/
def hardFiltered (scene_type : Option String) (used_patterns : List Int) : List Int :=
  (poolBase scene_type).filter (fun p => !used_patterns.contains p)

/-- The candidate pool of `suggest_patterns` after the scene-type
seeding, the used-pattern hard exclusion, and the previous-category
de-biasing step (everything before the backfill).  `coin` models
`random.random() < 0.8`.  `if previous_pattern:` is Python truthiness:
taken only for a non-`None`, non-zero id. -/
def candidatePool : Option String → List Int → Option Int → Bool → List Int
  | st, used, none, _ => hardFiltered st used
  | st, used, some prev, coin =>
    if prev ≠ 0 then
      let prevCat := get_category prev
      let sameCat := (hardFiltered st used).filter (fun p => get_category p == prevCat)
      let diffCat := (hardFiltered st used).filter (fun p => get_category p != prevCat)
      if !diffCat.isEmpty && coin then diffCat else sameCat ++ diffCat
    else hardFiltered st used

/-- The backfill step: if fewer than `count` candidates remain, extend
with a prefix of the unused ids in catalog order. -/
def backfilled (pool : List Int) (used_patterns : List Int) (count : Nat) : List Int :=
  if pool.length < count then
    let unused := LAYOUT_PATTERN_IDS.filter (fun p => !used_patterns.contains p)
    pool ++ unused.take (count - pool.length)
  else pool

/-- `suggest_patterns`.  `samp` models `random.sample`; the code draws
`min(count, len(candidates))` elements from the final candidate list. -/
def suggest_patterns (scene_type : Option String) (used_patterns : List Int)
    (previous_pattern : Option Int) (count : Nat)
    (coin : Bool) (samp : List Int → Nat → List Int) : List Suggestion :=
  let candidates := backfilled (candidatePool scene_type used_patterns previous_pattern coin)
      used_patterns count
  let selected := samp candidates (min count candidates.length)
  selected.map (fun p => ⟨p, get_category p, weightOf p⟩)

/-- Contract of `random.sample(l, k)` for `k ≤ len(l)`: a length-`k`
selection of distinct positions of `l`, in an arbitrary order — i.e. a
permutation of some sublist of `l`. -/
def SampleOK (samp : List Int → Nat → List Int) : Prop :=
  ∀ l k, k ≤ l.length →
    ∃ sub, sub.Sublist l ∧ (samp l k).Perm sub ∧ (samp l k).length = k

/-- The deterministic sampler taking the first `k` elements; it
satisfies `SampleOK` and is used as a concrete oracle in witnesses. -/
def takeSamp : List Int → Nat → List Int := fun l k => l.take k

theorem takeSamp_ok : SampleOK takeSamp := by
  intro l k hk
  refine ⟨l.take k, List.take_sublist k l, List.Perm.refl _, ?_⟩
  simp [takeSamp, List.length_take]
  omega

/-- One record of a generated sequence (`name` omitted as above). -/
structure GenRec where
  scene_number : Nat
  pattern_id : Int
  category : String
  weight : String
deriving DecidableEq, Repr

/-- The per-iteration scene type:
`scene_types[i] if scene_types else None`, with Python truthiness (an
empty list behaves like `None`).  Out-of-range access cannot occur in a
validated call, where the list's length equals the scene count. -/
def sceneTypeAt (stypes : Option (List String)) (i : Nat) : Option String :=
  match stypes with
  | some l => if l.isEmpty then none else l.get? i
  | none => none

/-- The loop body of `generate_sequence`: `k` iterations remaining,
`i` the current scene index.  When `suggest_patterns` returns no
suggestions the iteration appends nothing (the Python
`if suggestions:` guard). -/
def genLoop (coins : Nat → Bool) (samps : Nat → List Int → Nat → List Int) :
    Nat → Nat → Option (List String) → List Int → Option Int → List GenRec
  | 0, _, _, _, _ => []
  | k + 1, i, stypes, used, prev =>
    match suggest_patterns (sceneTypeAt stypes i) used prev 3 (coins i) (samps i) with
    | [] => genLoop coins samps k (i + 1) stypes used prev
    | s :: _ =>
      ⟨i, s.pattern_id, s.category, s.weight⟩ ::
        genLoop coins samps k (i + 1) stypes (used ++ [s.pattern_id]) (some s.pattern_id)

/-- `generate_sequence`.  The validation guard is Python
`if scene_types and len(scene_types) != num_scenes`, so an empty list
does not trigger it. -/
def generate_sequence (num_scenes : Nat) (scene_types : Option (List String))
    (coins : Nat → Bool) (samps : Nat → List Int → Nat → List Int) :
    Except String (List GenRec) :=
  if (match scene_types with
      | some l => !l.isEmpty && l.length != num_scenes
      | none => false) then
    .error "scene_types length must match num_scenes"
  else
    .ok (genLoop coins samps num_scenes 0 scene_types [] none)

/-- Whether a modelled call raised. -/
def raised (e : Except String (List GenRec)) : Bool :=
  match e with
  | .error _ => true
  | .ok _ => false

end LayoutSelector

namespace LayoutSelector

/-! ### Helper lemmas about the catalog data and the sampling contract -/

theorem mem_rangeI {z : Int} {a len : Nat} :
    z ∈ rangeI a len ↔ (a : Int) ≤ z ∧ z < (a : Int) + (len : Int) := by
  simp only [rangeI, List.mem_map, List.mem_range'_1]
  constructor
  · rintro ⟨m, ⟨h1, h2⟩, rfl⟩
    omega
  · rintro ⟨h1, h2⟩
    refine ⟨z.toNat, ⟨?_, ?_⟩, ?_⟩ <;> omega

theorem catalog_nodup : LAYOUT_PATTERN_IDS.Nodup := by
  have h : (List.range' 1 100 1).Nodup := List.nodup_range' 1 100
  exact h.map (fun a b hab => by exact_mod_cast hab)

theorem recs_sub_catalog :
    ∀ r ∈ SCENE_TYPE_RECOMMENDATIONS, ∀ x ∈ r.2, x ∈ LAYOUT_PATTERN_IDS := by
  decide

theorem recs_nodup : ∀ r ∈ SCENE_TYPE_RECOMMENDATIONS, r.2.Nodup := by
  decide

theorem SampleOK.mem_of {samp} (h : SampleOK samp) {l : List Int} {k : Nat}
    (hk : k ≤ l.length) {x : Int} (hx : x ∈ samp l k) : x ∈ l := by
  obtain ⟨sub, hsub, hperm, _⟩ := h l k hk
  exact hsub.subset (hperm.mem_iff.mp hx)

theorem SampleOK.nodup_of {samp} (h : SampleOK samp) {l : List Int} {k : Nat}
    (hk : k ≤ l.length) (hl : l.Nodup) : (samp l k).Nodup := by
  obtain ⟨sub, hsub, hperm, _⟩ := h l k hk
  exact hperm.nodup_iff.mpr (hsub.nodup hl)

theorem SampleOK.length_of {samp} (h : SampleOK samp) (l : List Int) (k : Nat)
    (hk : k ≤ l.length) : (samp l k).length = k := by
  obtain ⟨sub, hsub, hperm, hlen⟩ := h l k hk
  exact hlen

theorem poolBase_cases (st : Option String) :
    poolBase st = LAYOUT_PATTERN_IDS ∨
      ∃ r ∈ SCENE_TYPE_RECOMMENDATIONS, poolBase st = r.2 := by
  unfold poolBase
  cases h : st.bind (fun s => SCENE_TYPE_RECOMMENDATIONS.find? (fun r => r.1 == s)) with
  | none => exact .inl rfl
  | some r =>
    refine .inr ⟨r, ?_, rfl⟩
    cases st with
    | none => exact absurd h (by simp)
    | some s => exact List.mem_of_find?_eq_some (by simpa using h)

theorem poolBase_sub_catalog (st : Option String) : poolBase st ⊆ LAYOUT_PATTERN_IDS := by
  rcases poolBase_cases st with h | ⟨r, hr, h⟩
  · rw [h]
    exact fun x hx => hx
  · rw [h]
    exact recs_sub_catalog r hr

theorem poolBase_nodup (st : Option String) : (poolBase st).Nodup := by
  rcases poolBase_cases st with h | ⟨r, hr, h⟩
  · rw [h]
    exact catalog_nodup
  · rw [h]
    exact recs_nodup r hr

theorem mem_hardFilter {base used : List Int} {q : Int}
    (hq : q ∈ base.filter (fun p => !used.contains p)) : q ∈ base ∧ q ∉ used := by
  have h := List.mem_filter.mp hq
  refine ⟨h.1, fun hmem => ?_⟩
  have hc : used.contains q = true := List.elem_iff.mpr hmem
  rw [hc] at h
  simp at h

theorem mem_candidatePool {st : Option String} {used : List Int} {prev : Option Int}
    {coin : Bool} {p : Int} (hp : p ∈ candidatePool st used prev coin) :
    p ∈ poolBase st ∧ p ∉ used := by
  cases prev with
  | none => exact mem_hardFilter hp
  | some v =>
    simp only [candidatePool] at hp
    by_cases hv : v ≠ 0
    · rw [if_pos hv] at hp
      by_cases hcoin :
          (!((hardFiltered st used).filter
            (fun q => get_category q != get_category v)).isEmpty && coin) = true
      · rw [if_pos hcoin] at hp
        exact mem_hardFilter (List.mem_filter.mp hp).1
      · rw [if_neg hcoin] at hp
        rcases List.mem_append.mp hp with h | h
        · exact mem_hardFilter (List.mem_filter.mp h).1
        · exact mem_hardFilter (List.mem_filter.mp h).1
    · rw [if_neg hv] at hp
      exact mem_hardFilter hp

theorem candidatePool_nodup (st : Option String) (used : List Int) (prev : Option Int)
    (coin : Bool) : (candidatePool st used prev coin).Nodup := by
  have h1 : (hardFiltered st used).Nodup := (poolBase_nodup st).filter _
  cases prev with
  | none => exact h1
  | some v =>
    simp only [candidatePool]
    by_cases hv : v ≠ 0
    · rw [if_pos hv]
      by_cases hcoin :
          (!((hardFiltered st used).filter
            (fun q => get_category q != get_category v)).isEmpty && coin) = true
      · rw [if_pos hcoin]
        exact h1.filter _
      · rw [if_neg hcoin]
        refine (h1.filter _).append (h1.filter _) ?_
        intro x hxs hxd
        have hs := (List.mem_filter.mp hxs).2
        have hd := (List.mem_filter.mp hxd).2
        simp only [beq_iff_eq] at hs
        simp only [bne_iff_ne, ne_eq] at hd
        exact hd hs
    · rw [if_neg hv]
      exact h1

theorem mem_backfilled {pool used : List Int} {count : Nat} {p : Int}
    (hp : p ∈ backfilled pool used count) :
    p ∈ pool ∨ (p ∈ LAYOUT_PATTERN_IDS ∧ p ∉ used) := by
  unfold backfilled at hp
  by_cases h : pool.length < count
  · rw [if_pos h] at hp
    simp only at hp
    rcases List.mem_append.mp hp with h1 | h1
    · exact .inl h1
    · exact .inr (mem_hardFilter (List.take_subset _ _ h1))
  · rw [if_neg h] at hp
    exact .inl hp

/-- Every suggestion's id is a catalog id that is not in `used_patterns`. -/
theorem suggest_mem_facts (st : Option String) (used : List Int) (prev : Option Int)
    (count : Nat) (coin : Bool) (samp : List Int → Nat → List Int)
    (hs : SampleOK samp) :
    ∀ s ∈ suggest_patterns st used prev count coin samp,
      s.pattern_id ∈ LAYOUT_PATTERN_IDS ∧ s.pattern_id ∉ used := by
  intro s hsmem
  unfold suggest_patterns at hsmem
  simp only [List.mem_map] at hsmem
  obtain ⟨p, hp, rfl⟩ := hsmem
  have hp' : p ∈ backfilled (candidatePool st used prev coin) used count :=
    hs.mem_of (Nat.min_le_right _ _) hp
  rcases mem_backfilled hp' with h | h
  · have h2 := mem_candidatePool h
    exact ⟨poolBase_sub_catalog st h2.1, h2.2⟩
  · exact h

end LayoutSelector

namespace LayoutSelector

theorem length_filter_contains_split (l used : List Int) :
    (l.filter (fun p => used.contains p)).length +
      (l.filter (fun p => !used.contains p)).length = l.length :=
  (List.length_eq_length_filter_add (fun p => used.contains p)).symm

theorem filter_used_length (used : List Int) :
    100 - used.length ≤ (LAYOUT_PATTERN_IDS.filter (fun p => !used.contains p)).length := by
  have hlen : LAYOUT_PATTERN_IDS.length = 100 := by
    simp [LAYOUT_PATTERN_IDS]
  have hsplit := length_filter_contains_split LAYOUT_PATTERN_IDS used
  have hsub : (LAYOUT_PATTERN_IDS.filter (fun p => used.contains p)).length ≤ used.length := by
    have hnd : (LAYOUT_PATTERN_IDS.filter (fun p => used.contains p)).Nodup :=
      catalog_nodup.filter _
    have hss : (LAYOUT_PATTERN_IDS.filter (fun p => used.contains p)) ⊆ used := by
      intro x hx
      exact List.elem_iff.mp (List.mem_filter.mp hx).2
    exact (List.subperm_of_subset hnd hss).length_le
  omega

/-- With fewer than 100 used ids, `suggest_patterns` with `count = 3`
cannot return an empty list: the backfill pool is nonempty. -/
theorem suggest_ne_nil (st : Option String) (used : List Int) (prev : Option Int)
    (coin : Bool) (samp : List Int → Nat → List Int) (hs : SampleOK samp)
    (hlen : used.length < 100) :
    suggest_patterns st used prev 3 coin samp ≠ [] := by
  have hbf : backfilled (candidatePool st used prev coin) used 3 ≠ [] := by
    unfold backfilled
    by_cases h : (candidatePool st used prev coin).length < 3
    · rw [if_pos h]
      intro hcontra
      have hunused := filter_used_length used
      rcases List.append_eq_nil.mp hcontra with ⟨h1, h2⟩
      have h3 : (List.take (3 - (candidatePool st used prev coin).length)
          (LAYOUT_PATTERN_IDS.filter (fun p => !used.contains p))).length = 0 := by
        rw [h2]
        rfl
      rw [List.length_take] at h3
      have h4 : (candidatePool st used prev coin).length = 0 := by
        rw [h1]
        rfl
      omega
    · rw [if_neg h]
      intro hcontra
      rw [hcontra] at h
      simp at h
  intro hcontra
  unfold suggest_patterns at hcontra
  have h0 : samp (backfilled (candidatePool st used prev coin) used 3)
      (min 3 (backfilled (candidatePool st used prev coin) used 3).length) = [] :=
    List.map_eq_nil_iff.mp hcontra
  have hlen3 : 0 < (backfilled (candidatePool st used prev coin) used 3).length :=
    List.length_pos.mpr hbf
  have hl := hs.length_of (backfilled (candidatePool st used prev coin) used 3)
      (min 3 (backfilled (candidatePool st used prev coin) used 3).length)
      (Nat.min_le_right _ _)
  rw [h0] at hl
  simp at hl
  omega

theorem get_category_unknown {z : Int} (hz : z < 1 ∨ 100 < z) : get_category z = "unknown" := by
  unfold get_category
  have hnone : CATEGORIES.find? (fun ci => ci.2.contains z) = none := by
    rw [List.find?_eq_none]
    intro ci hci
    simp only [CATEGORIES, List.mem_cons, List.not_mem_nil, or_false] at hci
    intro hcont
    have hzmem : z ∈ ci.2 := List.elem_iff.mp hcont
    rcases hci with h | h | h | h | h | h | h <;> subst h <;>
      (rw [mem_rangeI] at hzmem; rcases hz with hz | hz <;> omega)
  rw [hnone]

/-- C7: every pattern id in [1,100] belongs to exactly one category and
`get_category` returns one of the seven category names for it; every
integer outside [1,100] (such as 0 and 101) gets the sentinel
"unknown". -/
theorem c7_category_partition :
    (∀ n : Nat, 1 ≤ n → n ≤ 100 →
      (CATEGORIES.filter (fun ci => ci.2.contains ((n : Nat) : Int))).length = 1 ∧
      get_category ((n : Nat) : Int) ∈ CATEGORIES.map (fun ci => ci.1)) ∧
    (∀ z : Int, z < 1 ∨ 100 < z → get_category z = "unknown") := by
  constructor
  · have hb : ∀ n : Nat, n < 101 → 1 ≤ n →
        (CATEGORIES.filter (fun ci => ci.2.contains ((n : Nat) : Int))).length = 1 ∧
        get_category ((n : Nat) : Int) ∈ CATEGORIES.map (fun ci => ci.1) := by decide
    intro n h1 h2
    exact hb n (by omega) h1
  · intro z hz
    exact get_category_unknown hz

/-- Closed-instance witness for `c7_category_partition`. -/
theorem c7_category_partition_witness :
    ((CATEGORIES.filter (fun ci => ci.2.contains ((50 : Nat) : Int))).length = 1 ∧
      get_category ((50 : Nat) : Int) ∈ CATEGORIES.map (fun ci => ci.1)) ∧
    get_category 0 = "unknown" ∧ get_category 101 = "unknown" :=
  ⟨c7_category_partition.1 50 (by omega) (by omega),
   c7_category_partition.2 0 (.inl (by omega)),
   c7_category_partition.2 101 (.inr (by omega))⟩

/-- C8 counterexample: supplying an *empty* scene_types list with
`num_scenes = 1` does not raise — `if scene_types and ...` treats an
empty list as absent, so the claimed validation does not fire. -/
theorem c8_counterexample :
    raised (generate_sequence 1 (some []) (fun _ => true) (fun _ => takeSamp)) = false := by
  rfl

/-- C8 amended: `generate_sequence` fails with a validation error iff a
*nonempty* scene_types list whose length differs from `num_scenes` is
supplied (an empty list is falsy in Python and skips the check). -/
theorem c8_validation_amended (n : Nat) (stypes : Option (List String))
    (coins : Nat → Bool) (samps : Nat → List Int → Nat → List Int) :
    raised (generate_sequence n stypes coins samps) = true ↔
      ∃ l, stypes = some l ∧ l ≠ [] ∧ l.length ≠ n := by
  unfold generate_sequence
  cases stypes with
  | none =>
    constructor
    · intro hcontra
      exact absurd hcontra (by simp [raised])
    · rintro ⟨l, hl, _, _⟩
      exact Option.noConfusion hl
  | some l =>
    by_cases h : (!l.isEmpty && l.length != n) = true
    · rw [if_pos h]
      rw [Bool.and_eq_true] at h
      constructor
      · intro _
        refine ⟨l, rfl, ?_, ?_⟩
        · intro hcontra
          subst hcontra
          simp at h
        · have h2 := h.2
          simpa using h2
      · intro _
        rfl
    · rw [if_neg h]
      constructor
      · intro hcontra
        exact absurd hcontra (by simp [raised])
      · rintro ⟨l', hl', hne, hlen⟩
        injection hl' with hl2
        subst hl2
        have hcond : (!l.isEmpty && l.length != n) = true := by
          rw [Bool.and_eq_true]
          exact ⟨by simpa using hne, by simpa using hlen⟩
        exact absurd hcond h

/-- C5: no suggestion returned by `suggest_patterns` has a pattern id in
`used_patterns` — the hard-exclusion filter and the backfill both avoid
used ids, and the sample is drawn from that pool. -/
theorem c5_suggest_excludes_used (st : Option String) (used : List Int)
    (prev : Option Int) (count : Nat) (coin : Bool)
    (samp : List Int → Nat → List Int) (hs : SampleOK samp) :
    ∀ s ∈ suggest_patterns st used prev count coin samp, s.pattern_id ∉ used :=
  fun s hsmem => (suggest_mem_facts st used prev count coin samp hs s hsmem).2

/-- Closed-instance witness for `c5_suggest_excludes_used`. -/
theorem c5_suggest_excludes_used_witness :
    (⟨2, "asymmetric", "light"⟩ : Suggestion) ∉ ([] : List Suggestion) ∧
    (⟨2, "asymmetric", "light"⟩ : Suggestion).pattern_id ∉ [(1 : Int)] :=
  ⟨by simp,
   c5_suggest_excludes_used none [1] none 1 true takeSamp takeSamp_ok
     ⟨2, "asymmetric", "light"⟩ (by decide)⟩

end LayoutSelector

namespace LayoutSelector

/-- C6 counterexample: the backfill step re-adds ids that already sit in
the candidate pool, so even a legitimate without-replacement sampler
returns duplicated pattern ids.  With scene type "problem",
`used = [2,46,76,77,83]` the filtered pool is `[1]` and the backfill
prepends the unused ids `1,3,4,5`, giving the pool `[1,1,3,4,5]`. -/
theorem c6_counterexample :
    SampleOK takeSamp ∧
    ((suggest_patterns (some "problem") [2, 46, 76, 77, 83] none 5 true takeSamp).map
        (fun s => s.pattern_id)) = [1, 1, 3, 4, 5] ∧
    ¬ ((suggest_patterns (some "problem") [2, 46, 76, 77, 83] none 5 true takeSamp).map
        (fun s => s.pattern_id)).Nodup :=
  ⟨takeSamp_ok, by decide, by decide⟩

/-- C6 amended: the final selection is still a draw without replacement
from the candidate pool, so at most `count` suggestions come back; their
pattern ids are pairwise distinct provided the pool before the backfill
already holds at least `count` candidates (the backfill step can
re-insert ids that are already in the pool, which is the only source of
duplicates). -/
theorem c6_sample_without_replacement_amended (st : Option String) (used : List Int)
    (prev : Option Int) (count : Nat) (coin : Bool)
    (samp : List Int → Nat → List Int) (hs : SampleOK samp) :
    (suggest_patterns st used prev count coin samp).length ≤ count ∧
    (count ≤ (candidatePool st used prev coin).length →
      ((suggest_patterns st used prev count coin samp).map (fun s => s.pattern_id)).Nodup) := by
  constructor
  · unfold suggest_patterns
    rw [List.length_map]
    rw [hs.length_of _ _ (Nat.min_le_right _ _)]
    exact Nat.min_le_left _ _
  · intro hcount
    have hpool : backfilled (candidatePool st used prev coin) used count =
        candidatePool st used prev coin := by
      unfold backfilled
      rw [if_neg (by omega)]
    unfold suggest_patterns
    rw [hpool]
    have hids : ((samp (candidatePool st used prev coin)
          (min count (candidatePool st used prev coin).length)).map
            (fun p => (⟨p, get_category p, weightOf p⟩ : Suggestion))).map
          (fun s => s.pattern_id) =
        samp (candidatePool st used prev coin)
          (min count (candidatePool st used prev coin).length) := by
      rw [List.map_map]
      exact List.map_id _
    rw [hids]
    exact hs.nodup_of (Nat.min_le_right _ _) (candidatePool_nodup st used prev coin)

/-- Closed-instance witness for `c6_sample_without_replacement_amended`. -/
theorem c6_sample_without_replacement_amended_witness :
    (suggest_patterns none [] none 2 true takeSamp).length ≤ 2 ∧
    ((suggest_patterns none [] none 2 true takeSamp).map (fun s => s.pattern_id)).Nodup :=
  ⟨(c6_sample_without_replacement_amended none [] none 2 true takeSamp takeSamp_ok).1,
   (c6_sample_without_replacement_amended none [] none 2 true takeSamp takeSamp_ok).2
     (by decide)⟩

end LayoutSelector

namespace LayoutSelector

/-- Invariant of the `generate_sequence` loop: with at most `100 -
used.length` iterations left, each iteration contributes exactly one
record; the scene numbers run consecutively and all chosen pattern ids
are fresh and pairwise distinct. -/
theorem genLoop_spec (coins : Nat → Bool) (samps : Nat → List Int → Nat → List Int)
    (hs : ∀ i, SampleOK (samps i)) :
    ∀ (k i : Nat) (stypes : Option (List String)) (used : List Int) (prev : Option Int),
      used.length + k ≤ 100 →
      (genLoop coins samps k i stypes used prev).map (fun r => r.scene_number) =
          List.range' i k ∧
        ((genLoop coins samps k i stypes used prev).map (fun r => r.pattern_id)).Nodup ∧
        ∀ x ∈ (genLoop coins samps k i stypes used prev).map (fun r => r.pattern_id),
          x ∉ used := by
  intro k
  induction k with
  | zero =>
    intro i stypes used prev hle
    refine ⟨rfl, List.nodup_nil, ?_⟩
    intro x hx
    simp [genLoop] at hx
  | succ k ih =>
    intro i stypes used prev hle
    cases hsug : suggest_patterns (sceneTypeAt stypes i) used prev 3
        (coins i) (samps i) with
    | nil =>
      exact absurd hsug
        (suggest_ne_nil (sceneTypeAt stypes i) used prev (coins i) (samps i) (hs i)
          (by omega))
    | cons s rest =>
      have hsmem : s ∈ suggest_patterns (sceneTypeAt stypes i) used prev 3
          (coins i) (samps i) := by
        rw [hsug]
        exact List.mem_cons_self _ _
      have hfacts := suggest_mem_facts _ used prev 3 (coins i) (samps i) (hs i) s hsmem
      have hloop : genLoop coins samps (k + 1) i stypes used prev =
          ⟨i, s.pattern_id, s.category, s.weight⟩ ::
            genLoop coins samps k (i + 1) stypes (used ++ [s.pattern_id])
              (some s.pattern_id) := by
        show (match suggest_patterns (sceneTypeAt stypes i) used prev 3
            (coins i) (samps i) with
          | [] => genLoop coins samps k (i + 1) stypes used prev
          | s :: _ =>
            (⟨i, s.pattern_id, s.category, s.weight⟩ : GenRec) ::
              genLoop coins samps k (i + 1) stypes (used ++ [s.pattern_id])
                (some s.pattern_id)) = _
        rw [hsug]
      have hih := ih (i + 1) stypes (used ++ [s.pattern_id]) (some s.pattern_id)
        (by simp; omega)
      rw [hloop]
      refine ⟨?_, ?_, ?_⟩
      · rw [List.map_cons, hih.1]
        rfl
      · rw [List.map_cons]
        refine List.nodup_cons.mpr ⟨?_, hih.2.1⟩
        intro hmem
        have := hih.2.2 s.pattern_id hmem
        simp at this
      · intro x hx
        rw [List.map_cons] at hx
        rcases List.mem_cons.mp hx with h | h
        · rw [h]
          exact hfacts.2
        · have := hih.2.2 x h
          intro hx2
          exact this (List.mem_append.mpr (.inl hx2))

/-- C1: for `n ≤ 100` (and, if supplied, a scene-types list of length
`n`), `generate_sequence` succeeds with exactly `n` records whose
pattern ids are pairwise distinct and whose `i`-th scene number is `i`,
for any coin-flip stream and any sampler meeting `random.sample`'s
contract. -/
theorem c1_generate_sequence (n : Nat) (hn : n ≤ 100) (stypes : Option (List String))
    (hst : stypes = none ∨ ∃ l, stypes = some l ∧ l.length = n)
    (coins : Nat → Bool) (samps : Nat → List Int → Nat → List Int)
    (hs : ∀ i, SampleOK (samps i)) :
    ∃ seq, generate_sequence n stypes coins samps = .ok seq ∧ seq.length = n ∧
      (seq.map (fun r => r.pattern_id)).Nodup ∧
      seq.map (fun r => r.scene_number) = List.range n := by
  have hspec := genLoop_spec coins samps hs n 0 stypes [] none (by simpa using hn)
  refine ⟨genLoop coins samps n 0 stypes [] none, ?_, ?_, hspec.2.1, ?_⟩
  · unfold generate_sequence
    rcases hst with rfl | ⟨l, rfl, hlen⟩
    · rfl
    · rw [if_neg]
      simp [hlen]
  · have := congrArg List.length hspec.1
    simpa using this
  · rw [hspec.1]
    exact (List.range_eq_range' n).symm

/-- Closed-instance witness for `c1_generate_sequence`. -/
theorem c1_generate_sequence_witness :
    ∃ seq, generate_sequence 2 (some ["opening", "problem"]) (fun _ => true)
        (fun _ => takeSamp) = .ok seq ∧ seq.length = 2 ∧
      (seq.map (fun r => r.pattern_id)).Nodup ∧
      seq.map (fun r => r.scene_number) = List.range 2 :=
  c1_generate_sequence 2 (by omega) (some ["opening", "problem"])
    (.inr ⟨["opening", "problem"], rfl, rfl⟩) (fun _ => true) (fun _ => takeSamp)
    (fun _ => takeSamp_ok)

end LayoutSelector

/-! ## prompt_parser.py -/

namespace PromptParsing

/-- Match of `\s*\n\s*"([^"]+)"` at the current position: a whitespace
run containing a newline (the quote is not whitespace, so the consumed
run is exactly the maximal one), then a quoted nonempty run of
non-quote characters with a closing quote.  Returns the capture. -/
def matchWsNlQuoted (s : Str) : Option Str :=
  let w := s.takeWhile pyIsSpace
  let rest := s.dropWhile pyIsSpace
  if w.contains '\n' then
    match rest with
    | '"' :: r =>
      let body := r.takeWhile (fun c => c != '"')
      if !body.isEmpty && body.length < r.length then some body else none
    | _ => none
  else none

/-- `re.search(r'Nano Banana Iterative Prompt:\s*\n\s*"([^"]+)"', s, re.DOTALL)`
as used in `SceneData._parse_prompts`. -/
def nanoBananaQuoted (s : Str) : Option Str :=
  (scanFirst (litThen "Nano Banana Iterative Prompt:" matchWsNlQuoted) s).map (·.2)

/-- `re.search(r'Initial Prompt:\s*\n\s*"([^"]+)"', s, re.DOTALL)` (legacy
initial-prompt format). -/
def legacyInitialQuoted (s : Str) : Option Str :=
  (scanFirst (litThen "Initial Prompt:" matchWsNlQuoted) s).map (·.2)

/-- The part of `Initial:\s*([^|]+)` after the literal: the engine
consumes the maximal whitespace run; if a non-`|` character follows,
the greedy capture is the maximal run of non-`|` characters from there;
otherwise it backtracks one whitespace character (which is itself a
non-`|` character) and captures just it; with no whitespace and no
non-`|` character the match at this position fails. -/
def initialBarAfter (t : Str) : Option Str :=
  let w := t.takeWhile pyIsSpace
  let rest := t.dropWhile pyIsSpace
  match rest with
  | c :: _ =>
    if c != '|' then some (rest.takeWhile (fun x => x != '|'))
    else
      match w.reverse with
      | lastc :: _ => some [lastc]
      | [] => none
  | [] =>
    match w.reverse with
    | lastc :: _ => some [lastc]
    | [] => none

/-- `re.search(r'Initial:\s*([^|]+)', s)`: leftmost occurrence of the
literal whose continuation matches; returns the raw capture. -/
def searchInitialBar (s : Str) : Option Str :=
  (scanFirst (litThen "Initial:" initialBarAfter) s).map (·.2)

/-- The lazy `.*?:` of `Final Prompt.*?:\s*\n\s*"([^"]+)"`: scan the
colons left to right and take the first whose continuation matches. -/
def colonScan : Str → Option Str
  | [] => none
  | c :: t =>
    if c = ':' then
      match matchWsNlQuoted t with
      | some b => some b
      | none => colonScan t
    else colonScan t

/-- `re.search(r'Final Prompt.*?:\s*\n\s*"([^"]+)"', s, re.DOTALL)`. -/
def finalPromptQuoted (s : Str) : Option Str :=
  (scanFirst (litThen "Final Prompt" colonScan) s).map (·.2)

/-- The `initial_prompt`/`final_prompt` pair computed by
`SceneData._parse_prompts`. -/
structure PromptPair where
  initial_prompt : Option Str
  final_prompt : Option Str
deriving DecidableEq, Repr

/-- Python falsiness of an optional string: `None` or `""`. -/
def optFalsy : Option Str → Bool
  | none => true
  | some s => s.isEmpty

/-- Step 1 of `_parse_prompts`: if the stripped prompt starts with
"Initial:", capture up to the next `|` (searching the unstripped
prompt, as the code does) and strip it. -/
def initialStep1 (prompt : Str) : Option Str :=
  if (strLit "Initial:").isPrefixOf (pyStrip prompt) then
    match searchInitialBar prompt with
    | some cap => some (pyStrip cap)
    | none => none
  else none

/-- Step 2 of `_parse_prompts`: the Nano-Banana quoted block is searched
unconditionally; when it holds its own "Initial: ... |" marker the
result *overwrites* any value from step 1. -/
def initialStep2 (prompt : Str) (i1 : Option Str) : Option Str :=
  match nanoBananaQuoted prompt with
  | some body =>
    match searchInitialBar (pyStrip body) with
    | some cap => some (pyStrip cap)
    | none => i1
  | none => i1

/-- Step 3 of `_parse_prompts`: the legacy quoted block applies only
when `initial_prompt` is still falsy (`None` or empty). -/
def initialStep3 (prompt : Str) (i2 : Option Str) : Option Str :=
  if optFalsy i2 then
    match legacyInitialQuoted prompt with
    | some cap => some (pyStrip cap)
    | none => i2
  else i2

/-- Step 4 of `_parse_prompts`: `final_prompt` from the quoted
"Final Prompt...:" block, rejected when empty after stripping or when
it starts with the placeholder prefix. -/
def finalStep (prompt : Str) : Option Str :=
  match finalPromptQuoted prompt with
  | some cap =>
    let ft := pyStrip cap
    if !ft.isEmpty && !(strLit "[To be determined").isPrefixOf ft then some ft else none
  | none => none

/-- `SceneData._parse_prompts` (an empty prompt leaves both fields
absent, the `if not self.prompt: return` guard). -/
def parsePrompts (prompt : Str) : PromptPair :=
  if prompt.isEmpty then ⟨none, none⟩
  else ⟨initialStep3 prompt (initialStep2 prompt (initialStep1 prompt)), finalStep prompt⟩

end PromptParsing

namespace PromptParsing

/-- The C4 counterexample prompt: starts with the "Initial:" marker
(capturing "A") but also holds a Nano Banana quoted block with its own
"Initial:" marker (capturing "B"). -/
def c4Prompt : Str :=
  strLit "Initial: A | x\nNano Banana Iterative Prompt:\n\"Initial: B | y\""

/-- C4 counterexample: the prompt text begins with the literal marker
"Initial:" and the text up to the next `|`, trimmed, is "A" — yet
`_parse_prompts` reports initial_prompt "B", because the Nano-Banana
strategy runs unconditionally and overwrites the step-1 result, contrary
to the claimed first-match-wins priority. -/
theorem c4_counterexample :
    (strLit "Initial:").isPrefixOf (pyStrip c4Prompt) = true ∧
    (searchInitialBar c4Prompt).map pyStrip = some (strLit "A") ∧
    (parsePrompts c4Prompt).initial_prompt = some (strLit "B") ∧
    (parsePrompts c4Prompt).initial_prompt ≠ (searchInitialBar c4Prompt).map pyStrip := by
  refine ⟨by rfl, by rfl, by rfl, by decide⟩

/-- C4 amended: when the prompt text begins with "Initial:", its
initial_prompt is the text up to the next `|` delimiter (trimmed),
provided that the (unconditionally applied) Nano-Banana-quoted strategy
yields nothing and the captured text does not trim to empty; the legacy
"Initial Prompt:" strategy never overrides a non-falsy value. -/
theorem c4_initial_marker_amended (prompt : Str) (hne : prompt.isEmpty = false)
    (hpre : (strLit "Initial:").isPrefixOf (pyStrip prompt) = true)
    (cap : Str) (hcap : searchInitialBar prompt = some cap)
    (hcapne : (pyStrip cap).isEmpty = false)
    (hnano : (nanoBananaQuoted prompt).bind (fun body => searchInitialBar (pyStrip body)) =
      none) :
    (parsePrompts prompt).initial_prompt = some (pyStrip cap) := by
  have h1 : initialStep1 prompt = some (pyStrip cap) := by
    unfold initialStep1
    rw [if_pos hpre, hcap]
  have h2 : initialStep2 prompt (initialStep1 prompt) = some (pyStrip cap) := by
    unfold initialStep2
    cases hn : nanoBananaQuoted prompt with
    | none => exact h1
    | some body =>
      rw [hn] at hnano
      simp only [Option.some_bind] at hnano
      show (match searchInitialBar (pyStrip body) with
        | some cap => some (pyStrip cap)
        | none => initialStep1 prompt) = some (pyStrip cap)
      rw [hnano]
      exact h1
  have h3 : initialStep3 prompt (initialStep2 prompt (initialStep1 prompt)) =
      some (pyStrip cap) := by
    unfold initialStep3
    rw [h2]
    rw [if_neg]
    simp [optFalsy, hcapne]
  have hinit : (parsePrompts prompt).initial_prompt =
      initialStep3 prompt (initialStep2 prompt (initialStep1 prompt)) := by
    unfold parsePrompts
    rw [if_neg (by simp [hne])]
  rw [hinit]
  exact h3

/-- Closed-instance witness for `c4_initial_marker_amended`. -/
theorem c4_initial_marker_amended_witness :
    (parsePrompts (strLit "Initial: A red ball | Iteration 1: x")).initial_prompt =
      some (pyStrip (strLit "A red ball ")) :=
  c4_initial_marker_amended (strLit "Initial: A red ball | Iteration 1: x")
    (by rfl) (by rfl) (strLit "A red ball ") (by rfl) (by rfl) (by rfl)

theorem parsePrompts_final (prompt : Str) :
    (parsePrompts prompt).final_prompt =
      if prompt.isEmpty then none else finalStep prompt := by
  unfold parsePrompts
  by_cases he : prompt.isEmpty = true
  · rw [if_pos he, if_pos he]
  · rw [if_neg he, if_neg he]

/-- C9: `final_prompt` is never populated with text starting with the
placeholder prefix "[To be determined"; a final-prompt block whose
stripped content starts with the placeholder leaves the field absent. -/
theorem c9_final_prompt_placeholder :
    (∀ prompt t, (parsePrompts prompt).final_prompt = some t →
      (strLit "[To be determined").isPrefixOf t = false) ∧
    (∀ prompt cap, finalPromptQuoted prompt = some cap →
      (strLit "[To be determined").isPrefixOf (pyStrip cap) = true →
      (parsePrompts prompt).final_prompt = none) := by
  constructor
  · intro prompt t ht
    rw [parsePrompts_final] at ht
    by_cases he : prompt.isEmpty = true
    · rw [if_pos he] at ht
      exact absurd ht (by simp)
    · rw [if_neg he] at ht
      unfold finalStep at ht
      cases hq : finalPromptQuoted prompt with
      | none =>
        rw [hq] at ht
        exact absurd ht (by simp)
      | some cap =>
        rw [hq] at ht
        simp only at ht
        by_cases hc : (!(pyStrip cap).isEmpty &&
            !(strLit "[To be determined").isPrefixOf (pyStrip cap)) = true
        · rw [if_pos hc] at ht
          injection ht with ht2
          subst ht2
          rw [Bool.and_eq_true] at hc
          simpa using hc.2
        · rw [if_neg hc] at ht
          exact absurd ht (by simp)
  · intro prompt cap hq hpl
    rw [parsePrompts_final]
    by_cases he : prompt.isEmpty = true
    · rw [if_pos he]
    · rw [if_neg he]
      unfold finalStep
      rw [hq]
      simp only
      rw [if_neg]
      intro hcontra
      rw [Bool.and_eq_true] at hcontra
      have h2 := hcontra.2
      rw [hpl] at h2
      simp at h2

/-- Closed-instance witness for `c9_final_prompt_placeholder`. -/
theorem c9_final_prompt_placeholder_witness :
    (strLit "[To be determined").isPrefixOf (strLit "done") = false ∧
    (parsePrompts (strLit "Final Prompt:\n\"[To be determined later]\"")).final_prompt =
      none :=
  ⟨c9_final_prompt_placeholder.1 (strLit "Final Prompt:\n\"done\"") (strLit "done") (by rfl),
   c9_final_prompt_placeholder.2 (strLit "Final Prompt:\n\"[To be determined later]\"")
     (strLit "[To be determined later]") (by rfl) (by rfl)⟩

end PromptParsing

namespace PromptParsing

/-- One scene heading match of
`##\s*\*?\*?SCENE\s+(\d+):\s*([^(]+)\s*\(([^)]+)\)` (IGNORECASE):
`stop` is the number of characters the match consumed, the other fields
the three raw capture groups. -/
structure RawHeading where
  stop : Nat
  numStr : Str
  titleRaw : Str
  durRaw : Str
deriving DecidableEq, Repr

/-- The `([^)]+)\)` tail shared by the heading matchers: a nonempty
maximal run of non-`)` characters followed by the closing paren
(backtracking cannot reach any later `(`, so an empty or unclosed
parenthesis fails the whole attempt). -/
def headingTail (t : Str) (ds g2 r4 : Str) : Option RawHeading :=
  let v := r4.takeWhile (fun x => x != ')')
  if v.isEmpty then none
  else
    match r4.drop v.length with
    | ')' :: r5 => some ⟨t.length - r5.length, ds, g2, v⟩
    | _ => none

/-- Match the scene-heading pattern at the current position.  The
`\s*([^(]+)\s*\(` part after the colon: the engine consumes the maximal
whitespace run; if a non-`(` follows, the capture is the maximal run of
non-`(` characters (which must be closed by a `(`); if a `(` follows
directly, the engine gives back one whitespace character as the
capture; with neither, the attempt fails. -/
def matchSceneHeadingAt (t : Str) : Option RawHeading :=
  match t with
  | '#' :: '#' :: t1 =>
    let t2 := t1.dropWhile pyIsSpace
    let nstars := min (t2.takeWhile (fun c => c == '*')).length 2
    let t3 := t2.drop nstars
    if (t3.take 5).map Char.toLower == strLit "scene" then
      let t4 := t3.drop 5
      if (t4.takeWhile pyIsSpace).isEmpty then none
      else
        let t5 := t4.dropWhile pyIsSpace
        let ds := t5.takeWhile Char.isDigit
        if ds.isEmpty then none
        else
          match t5.drop ds.length with
          | ':' :: t6 =>
            let w := t6.takeWhile pyIsSpace
            let r2 := t6.dropWhile pyIsSpace
            match r2 with
            | '(' :: r3 =>
              if w.isEmpty then none
              else headingTail t ds [w.reverse.headD ' '] r3
            | _ :: _ =>
              let u := r2.takeWhile (fun x => x != '(')
              match r2.drop u.length with
              | '(' :: r4 => headingTail t ds u r4
              | _ => none
            | [] => none
          | _ => none
    else none
  | _ => none

/-- `re.finditer` over the scene-heading pattern: successive leftmost
matches, each search resuming at the end of the previous match.  Every
match consumes at least one character, so `s.length + 1` rounds of fuel
always suffice. -/
def findHeadingsAux (fuel : Nat) (s : Str) (pos : Nat) : List (Nat × RawHeading) :=
  match fuel with
  | 0 => []
  | fuel + 1 =>
    match scanFirst matchSceneHeadingAt s with
    | some (i, h) =>
      (pos + i, h) :: findHeadingsAux fuel (s.drop (i + h.stop)) (pos + i + h.stop)
    | none => []

/-- All scene-heading matches with their absolute start positions. -/
def findHeadings (s : Str) : List (Nat × RawHeading) := findHeadingsAux (s.length + 1) s 0

/-- Match of the end-of-scene delimiter `\n##\s*\*?\*?SCENE` at the
current position.  Note it is case-SENSITIVE (no IGNORECASE flag) and
demands a preceding newline, unlike the heading pattern. -/
def matchDelimAt : Str → Option Unit
  | '\n' :: '#' :: '#' :: t1 =>
    let t2 := t1.dropWhile pyIsSpace
    let nstars := min (t2.takeWhile (fun c => c == '*')).length 2
    if (strLit "SCENE").isPrefixOf (t2.drop nstars) then some () else none
  | _ => none

/-- The scene body window: from the end of the heading match to the
first delimiter occurrence (`scene_end = scene_start +
next_scene_match.start()`), or to the end of the document. -/
def windowAt (s : Str) (endPos : Nat) : Str :=
  let rest := s.drop endPos
  match scanFirst matchDelimAt rest with
  | some (i, _) => rest.take i
  | none => rest

/-- `re.search(r'Image Generation Prompts \(2-Step Workflow\):(.*?)Animation Prompt', w, re.DOTALL)`:
leftmost label occurrence followed anywhere by "Animation Prompt"; the
lazy capture runs up to the first such following occurrence. -/
def twoStageBlock (s : Str) : Option Str :=
  (scanFirst (litThen "Image Generation Prompts (2-Step Workflow):" (fun t =>
    match findSub "Animation Prompt" t with
    | some i => some (t.take i)
    | none => none)) s).map (·.2)

/-- Match of `\s*\n+LIT` at the start of `t`: some nonempty whitespace
prefix whose last character is a newline, followed by the literal. -/
def wsNlThenLitAux (lit : Str) : Str → Bool
  | [] => false
  | c :: t => pyIsSpace c && ((c == '\n' && lit.isPrefixOf t) || wsNlThenLitAux lit t)

/-- The greedy `(.+)"\s*\n+Animation Prompt` part of the legacy block
pattern applied after the opening quote: the capture extends to the
LAST quote that is followed by whitespace ending in a newline and the
literal "Animation Prompt". -/
def nanoBodyB (r : Str) : Option Str :=
  match ((List.range r.length).filter (fun q =>
      decide (1 ≤ q) && r.getD q ' ' == '"' &&
      wsNlThenLitAux (strLit "Animation Prompt") (r.drop (q + 1)))).getLast? with
  | some q => some (r.take q)
  | none => none

/-- `re.search(r'Nano Banana Iterative Prompt:\s*\n\s*"(.+)"\s*\n+Animation Prompt', w, re.DOTALL)`
(the fallback legacy prompt-block format in `parse_explainer_file`). -/
def nanoBlockParse (s : Str) : Option Str :=
  (scanFirst (litThen "Nano Banana Iterative Prompt:" (fun t =>
    let w := t.takeWhile pyIsSpace
    let rest := t.dropWhile pyIsSpace
    if w.contains '\n' then
      match rest with
      | '"' :: r => nanoBodyB r
      | _ => none
    else none)) s).map (·.2)

/-- The per-scene prompt text: the two-stage block first, else the
legacy Nano Banana block, stripped (`prompt_match.group(1).strip()`). -/
def scenePrompt (w : Str) : Option Str :=
  match twoStageBlock w with
  | some cap => some (pyStrip cap)
  | none =>
    match nanoBlockParse w with
    | some cap => some (pyStrip cap)
    | none => none

/-- The parsed scene record (`SceneData` after `_parse_prompts`).  The
source also converts the duration descriptor to a float with default
6.0; no claim touches the numeric value, so the raw captured descriptor
is kept. -/
structure SceneRec where
  scene_number : Nat
  title : Str
  durRaw : Str
  prompt : Str
  initial_prompt : Option Str
  final_prompt : Option Str
deriving DecidableEq, Repr

/-- `int(...)` on the captured digit string. -/
def digitsToNat (ds : Str) : Nat :=
  ds.foldl (fun a c => a * 10 + (c.toNat - 48)) 0

/-- Build the `SceneData` for one heading and its extracted prompt. -/
def mkScene (h : RawHeading) (prompt : Str) : SceneRec :=
  let pp := parsePrompts prompt
  ⟨digitsToNat h.numStr, pyStrip h.titleRaw, h.durRaw, prompt,
    pp.initial_prompt, pp.final_prompt⟩

/-- The scene loop of `parse_explainer_file`: for each heading match,
window the body and append a scene record iff a prompt block matched. -/
def parseScenes (s : Str) : List SceneRec :=
  (findHeadings s).filterMap (fun ph =>
    match scenePrompt (windowAt s (ph.1 + ph.2.stop)) with
    | some pr => some (mkScene ph.2 pr)
    | none => none)

/-- Each heading paired with its body window. -/
def headingWindows (s : Str) : List (RawHeading × Str) :=
  (findHeadings s).map (fun ph => (ph.2, windowAt s (ph.1 + ph.2.stop)))

/-- Whether a scene body matches either recognized prompt-block format. -/
def hasPromptBlock (w : Str) : Bool :=
  (twoStageBlock w).isSome || (nanoBlockParse w).isSome

/-- Total version of the extracted prompt (junk default for bodies with
no block; only applied under `hasPromptBlock`). -/
def scenePromptD (w : Str) : Str := (scenePrompt w).getD []

end PromptParsing

namespace PromptParsing

/-- Whether a literal occurs anywhere in a string. -/
def containsSub (pat : String) (s : Str) : Bool := (findSub pat s).isSome

theorem filterMap_eq_map_filter {α β : Type} (f : α → Option β) (p : α → Bool)
    (g : α → β) (h : ∀ a, f a = if p a then some (g a) else none) (l : List α) :
    l.filterMap f = (l.filter p).map g := by
  induction l with
  | nil => rfl
  | cons a t ih =>
    rw [List.filterMap_cons, List.filter_cons]
    by_cases hp : p a = true
    · rw [h a, if_pos hp, if_pos hp, List.map_cons, ih]
    · rw [h a, if_neg hp, if_neg hp, ih]

/-- C3: a heading contributes a (fully populated) scene record exactly
when its body window matches one of the two prompt-block formats; a
scene matching neither is silently absent from the result — no error
and no partial record. -/
theorem c3_unrecognized_scene_dropped (s : Str) :
    parseScenes s =
      ((headingWindows s).filter (fun hw => hasPromptBlock hw.2)).map
        (fun hw => mkScene hw.1 (scenePromptD hw.2)) := by
  unfold parseScenes headingWindows
  have hpt : ∀ ph : Nat × RawHeading,
      (match scenePrompt (windowAt s (ph.1 + ph.2.stop)) with
        | some pr => some (mkScene ph.2 pr)
        | none => none) =
      if hasPromptBlock (windowAt s (ph.1 + ph.2.stop)) then
        some (mkScene ph.2 (scenePromptD (windowAt s (ph.1 + ph.2.stop))))
      else none := by
    intro ph
    unfold hasPromptBlock scenePromptD scenePrompt
    cases h2 : twoStageBlock (windowAt s (ph.1 + ph.2.stop)) with
    | some cap => simp
    | none =>
      cases hn : nanoBlockParse (windowAt s (ph.1 + ph.2.stop)) with
      | some cap => simp
      | none => simp
  rw [filterMap_eq_map_filter _
    (fun ph => hasPromptBlock (windowAt s (ph.1 + ph.2.stop)))
    (fun ph => mkScene ph.2 (scenePromptD (windowAt s (ph.1 + ph.2.stop)))) hpt]
  rw [List.filter_map, List.map_map]
  rfl

/-- The C2 failing input: two scene headings matched by the parser, the
second written in lower case ("## scene 2: ...").  The heading regex
carries IGNORECASE but the end-of-body delimiter search does not. -/
def c2Doc : Str :=
  strLit "## SCENE 1: First (6 seconds)\nNarration: \"one\"\n## scene 2: Second (6 seconds)\nNarration: \"two\"\n"

/-- C2 evaluation at the failing input: the parser matches both
headings (scene numbers "1" and "2"), yet scene 1's body window runs to
the end of the document — it contains scene 2's heading and narration —
because the case-sensitive delimiter search does not recognize the
lower-case heading as a terminator.  The claim requires the window to
end at the next matched heading. -/
theorem c2_window_leak :
    (findHeadings c2Doc).map (fun ph => ph.2.numStr) = [strLit "1", strLit "2"] ∧
    (headingWindows c2Doc).map (fun hw => containsSub "Narration: \"two\"" hw.2) =
      [true, true] ∧
    (headingWindows c2Doc).map (fun hw => containsSub "scene 2" hw.2) = [true, false] := by
  refine ⟨by rfl, by rfl, by rfl⟩

end PromptParsing

/-! ## narration_extractor.py -/

namespace NarrationExtractor

open PromptParsing (RawHeading headingTail digitsToNat)

/-- Match of the header pattern
`## \*?\*?SCENE (\d+): ([^(]+) \(([^)]+)\)` (case-sensitive, literal
single spaces) at the current position.  For `([^(]+) \(` the greedy
capture runs to just before the first `(`; the literal space then has
to be the run's final character, which is given back, so the capture is
the run minus its final space (and the run must have length ≥ 2). -/
def matchNarrHeadingAt (t : Str) : Option RawHeading :=
  match t with
  | '#' :: '#' :: ' ' :: t1 =>
    let nstars := min (t1.takeWhile (fun c => c == '*')).length 2
    let t2 := t1.drop nstars
    if (strLit "SCENE ").isPrefixOf t2 then
      let t3 := t2.drop 6
      let ds := t3.takeWhile Char.isDigit
      if ds.isEmpty then none
      else
        match t3.drop ds.length with
        | ':' :: ' ' :: t4 =>
          let u := t4.takeWhile (fun x => x != '(')
          match t4.drop u.length with
          | '(' :: t5 =>
            if 2 ≤ u.length ∧ u.getLastD ' ' = ' ' then
              headingTail t ds u.dropLast t5
            else none
          | _ => none
        | _ => none
    else none
  | _ => none

/-- `re.findall` over the header pattern: successive leftmost matches. -/
def findNarrHeadingsAux (fuel : Nat) (s : Str) : List RawHeading :=
  match fuel with
  | 0 => []
  | fuel + 1 =>
    match scanFirst matchNarrHeadingAt s with
    | some (i, h) => h :: findNarrHeadingsAux fuel (s.drop (i + h.stop))
    | none => []

def findNarrHeadings (s : Str) : List RawHeading := findNarrHeadingsAux (s.length + 1) s

/-- Match of the section-start literal `## \*?\*?SCENE {scene_num}:`
(with `{scene_num}` the exact captured digit string) at the current
position; returns the consumed length. -/
def matchSecStartAt (numStr : Str) (t : Str) : Option Nat :=
  match t with
  | '#' :: '#' :: ' ' :: t1 =>
    let nstars := min (t1.takeWhile (fun c => c == '*')).length 2
    let t2 := t1.drop nstars
    if (strLit "SCENE ").isPrefixOf t2 then
      let t3 := t2.drop 6
      if numStr.isPrefixOf t3 then
        match t3.drop numStr.length with
        | ':' :: _ => some (3 + nstars + 6 + numStr.length + 1)
        | _ => none
      else none
    else none
  | _ => none

/-- The lookahead `(?=## \*?\*?SCENE \d+:)`. -/
def nextHdrLookahead (t : Str) : Bool :=
  match t with
  | '#' :: '#' :: ' ' :: t1 =>
    let nstars := min (t1.takeWhile (fun c => c == '*')).length 2
    let t2 := t1.drop nstars
    if (strLit "SCENE ").isPrefixOf t2 then
      let t3 := t2.drop 6
      let ds := t3.takeWhile Char.isDigit
      !ds.isEmpty && t3.getD ds.length ' ' == ':'
    else false
  | _ => false

/-- The `$` anchor without MULTILINE: end of string, or just before a
final newline. -/
def dollarOk (s : Str) (q : Nat) : Bool :=
  q == s.length || (q + 1 == s.length && s.getLastD ' ' == '\n')

/-- `re.search(rf'## \*?\*?SCENE {n}:.*?(?=## \*?\*?SCENE \d+:|$)', content, re.DOTALL)`:
anchor at the first occurrence of the section-start literal; the lazy
body stops at the earliest following position where the next-header
lookahead or `$` matches (the latter always matches at the end, so a
found anchor always yields a section). -/
def sectionFor (s : Str) (numStr : Str) : Option Str :=
  match scanFirst (matchSecStartAt numStr) s with
  | some (p, consumed) =>
    let start := p + consumed
    let js := (List.range (s.length + 1 - start)).filter (fun j =>
      nextHdrLookahead (s.drop (start + j)) || dollarOk s (start + j))
    let q := start + js.headD (s.length - start)
    some ((s.take q).drop p)
  | none => none

/-- `re.search(r'Narration: "([^"]+)"', section)`. -/
def narrationIn (sec : Str) : Option Str :=
  (scanFirst (litThen "Narration: \"" (fun t =>
    let b := t.takeWhile (fun c => c != '"')
    if !b.isEmpty && b.length < t.length then some b else none)) sec).map (·.2)

/-- One extracted narration record. -/
structure NarrRec where
  scene_number : Nat
  title : Str
  duration : Str
  narration : Str
deriving DecidableEq, Repr

/-- `extract_narration_from_file` on in-memory content: for each found
header, re-locate its section in the whole document by scene number and
keep the scene when a narration is quoted inside that section. -/
def extractNarrations (content : Str) : List NarrRec :=
  (findNarrHeadings content).filterMap (fun h =>
    match sectionFor content h.numStr with
    | some sec =>
      match narrationIn sec with
      | some n =>
        some ⟨digitsToNat h.numStr, pyStrip h.titleRaw, pyStrip h.durRaw, pyStrip n⟩
      | none => none
    | none => none)

/-- The filtering loop of `get_all_narrations`: keep records numbered at
most 11 whose scene number was not seen before (the Python `seen_scenes`
set is modelled as a list, membership being all that is used). -/
def filterTo12 : List NarrRec → List Nat → List NarrRec
  | [], _ => []
  | r :: rs, seen =>
    if r.scene_number ≤ 11 ∧ r.scene_number ∉ seen then
      r :: filterTo12 rs (r.scene_number :: seen)
    else filterTo12 rs seen

/-- `get_all_narrations` on in-memory content. -/
def getAllNarrations (content : Str) : List NarrRec :=
  filterTo12 (extractNarrations content) []

end NarrationExtractor

namespace NarrationExtractor

/-- Invariant of the `get_all_narrations` filtering loop, for an
arbitrary already-seen set: the kept records are numbered at most 11
and unseen, their scene numbers are pairwise distinct, they form an
order-preserving sublist of the input, each kept record is the first
input record bearing its scene number, and every admissible input
scene number is represented. -/
theorem filterTo12_spec (l : List NarrRec) :
    ∀ seen : List Nat,
      (∀ r ∈ filterTo12 l seen, r.scene_number ≤ 11 ∧ r.scene_number ∉ seen) ∧
      ((filterTo12 l seen).map (fun r => r.scene_number)).Nodup ∧
      (filterTo12 l seen).Sublist l ∧
      (∀ r ∈ filterTo12 l seen,
        l.find? (fun x => x.scene_number == r.scene_number) = some r) ∧
      (∀ x ∈ l, x.scene_number ≤ 11 → x.scene_number ∉ seen →
        ∃ r ∈ filterTo12 l seen, r.scene_number = x.scene_number) := by
  induction l with
  | nil =>
    intro seen
    refine ⟨?_, ?_, ?_, ?_, ?_⟩ <;> simp [filterTo12]
  | cons r0 rs ih =>
    intro seen
    by_cases hc : r0.scene_number ≤ 11 ∧ r0.scene_number ∉ seen
    · have heq : filterTo12 (r0 :: rs) seen =
          r0 :: filterTo12 rs (r0.scene_number :: seen) := by
        conv_lhs => rw [filterTo12]
        rw [if_pos hc]
      obtain ⟨ih1, ih2, ih3, ih4, ih5⟩ := ih (r0.scene_number :: seen)
      rw [heq]
      refine ⟨?_, ?_, ?_, ?_, ?_⟩
      · intro r hr
        rcases List.mem_cons.mp hr with h | h
        · subst h
          exact hc
        · have h2 := ih1 r h
          exact ⟨h2.1, fun hmem => h2.2 (List.mem_cons_of_mem _ hmem)⟩
      · rw [List.map_cons]
        refine List.nodup_cons.mpr ⟨?_, ih2⟩
        intro hmem
        rw [List.mem_map] at hmem
        obtain ⟨r, hr, hnum⟩ := hmem
        exact (ih1 r hr).2 (by rw [hnum]; exact List.mem_cons_self _ _)
      · exact List.Sublist.cons₂ _ ih3
      · intro r hr
        rcases List.mem_cons.mp hr with h | h
        · subst h
          rw [List.find?_cons_of_pos _ (by simp)]
        · rw [List.find?_cons_of_neg]
          · exact ih4 r h
          · have h2 := (ih1 r h).2
            simp only [beq_iff_eq]
            intro hcontra
            exact h2 (by rw [← hcontra]; exact List.mem_cons_self _ _)
      · intro x hx hx11 hxseen
        rcases List.mem_cons.mp hx with h | h
        · subst h
          exact ⟨x, List.mem_cons_self _ _, rfl⟩
        · by_cases hsame : x.scene_number = r0.scene_number
          · exact ⟨r0, List.mem_cons_self _ _, hsame.symm⟩
          · obtain ⟨r, hr, hrn⟩ := ih5 x h hx11 (by
              intro hmem
              rcases List.mem_cons.mp hmem with h2 | h2
              · exact hsame h2
              · exact hxseen h2)
            exact ⟨r, List.mem_cons_of_mem _ hr, hrn⟩
    · have heq : filterTo12 (r0 :: rs) seen = filterTo12 rs seen := by
        conv_lhs => rw [filterTo12]
        rw [if_neg hc]
      obtain ⟨ih1, ih2, ih3, ih4, ih5⟩ := ih seen
      rw [heq]
      refine ⟨ih1, ih2, List.Sublist.cons _ ih3, ?_, ?_⟩
      · intro r hr
        rw [List.find?_cons_of_neg]
        · exact ih4 r hr
        · have h1 := ih1 r hr
          simp only [beq_iff_eq]
          intro hcontra
          exact hc (by rw [hcontra]; exact ⟨h1.1, h1.2⟩)
      · intro x hx hx11 hxseen
        rcases List.mem_cons.mp hx with h | h
        · subst h
          exact absurd ⟨hx11, hxseen⟩ hc
        · exact ih5 x h hx11 hxseen

/-- C10: bulk narration retrieval keeps only records numbered 0..11
(scene numbers are parsed from digit strings, hence never negative),
with pairwise-distinct scene numbers; the kept records form an
order-preserving sublist of the extraction output in which each kept
record is the first occurrence of its scene number, and every scene
number at most 11 occurring in the extraction output is represented. -/
theorem c10_bulk_narrations (content : Str) :
    (∀ r ∈ getAllNarrations content, r.scene_number ≤ 11) ∧
    ((getAllNarrations content).map (fun r => r.scene_number)).Nodup ∧
    (getAllNarrations content).Sublist (extractNarrations content) ∧
    (∀ r ∈ getAllNarrations content,
      (extractNarrations content).find? (fun x => x.scene_number == r.scene_number) =
        some r) ∧
    (∀ x ∈ extractNarrations content, x.scene_number ≤ 11 →
      ∃ r ∈ getAllNarrations content, r.scene_number = x.scene_number) := by
  obtain ⟨h1, h2, h3, h4, h5⟩ := filterTo12_spec (extractNarrations content) []
  exact ⟨fun r hr => (h1 r hr).1, h2, h3, h4,
    fun x hx hx11 => h5 x hx hx11 (by simp)⟩

/-- The C10 witness document: a duplicated scene number 0 and an
out-of-range scene number 12. -/
def c10Doc : Str :=
  strLit "## SCENE 0: A (6 seconds)\nNarration: \"x\"\n## SCENE 0: B (6 seconds)\nNarration: \"y\"\n## SCENE 12: C (6 seconds)\nNarration: \"z\"\n"

set_option maxRecDepth 40000 in
/-- Closed-instance witness for `c10_bulk_narrations`: on `c10Doc` the
extraction yields records numbered 0, 0, 12 and the bulk retrieval
keeps exactly the first record numbered 0. -/
theorem c10_bulk_narrations_witness :
    (extractNarrations c10Doc).map (fun r => r.scene_number) = [0, 0, 12] ∧
    getAllNarrations c10Doc =
      [⟨0, strLit "A", strLit "6 seconds", strLit "x"⟩] ∧
    (⟨0, strLit "A", strLit "6 seconds", strLit "x"⟩ : NarrRec).scene_number ≤ 11 :=
  ⟨by rfl, by rfl,
   (c10_bulk_narrations c10Doc).1 ⟨0, strLit "A", strLit "6 seconds", strLit "x"⟩
     (by rw [(by rfl : getAllNarrations c10Doc =
         [⟨0, strLit "A", strLit "6 seconds", strLit "x"⟩])]
         exact List.mem_cons_self _ _)⟩

end NarrationExtractor
